import Mathlib

/-
Verification development for the jsci library
(packages/jsci: WriteStream.py, parser.py, Coding.py, simpleread.py).

The Python sources are shallowly embedded below:

* the JSON value model is the inductive type `Jsci.Json` (numbers keep the
  Python int/float distinction, since `NumericDecoder` branches on it);
* the selector transformer of parser.py is embedded as a step function over
  the bottom-up reduction events delivered by the lark LALR engine;
* `FileWriteStream` and `MemoryWriteStream` are embedded as explicit state
  passing (`FileState`/`MemState`); every operation returns the mutated state
  together with `Option PyErr` (the Python exception, if one was raised, with
  the mutations performed before the raise kept in the returned state);
* the numeric codec of Coding.py is embedded over the value model; numpy
  arrays are shape + flat row-major data, complex stored interleaved.

Python's RuntimeError/ValueError protocol errors are both rendered as
`PyErr.protocolViolation` (the spec's ProtocolViolation).  Textual details the
claims never inspect (number formatting, string escaping inside the platform
json.dumps) are modelled by simple total functions; all comma/newline/indent
placement done by WriteStream.py itself is reproduced exactly.
-/

namespace Jsci

/-- Numbers as Python distinguishes them: int versus float.  Floats are
modelled as rationals; the codec and writer only move them around, they never
do arithmetic on them. -/
inductive JNum where
  | int (n : Int)
  | float (q : ℚ)
deriving DecidableEq, Repr

/-- The JSON value model: null, bool, number, string, array, ordered-key
object (insertion order preserved, as Python dicts do). -/
inductive Json where
  | null
  | bool (b : Bool)
  | num (n : JNum)
  | str (s : String)
  | arr (xs : List Json)
  | obj (kvs : List (String × Json))
deriving Repr

/-- Path segments of the selector transformer: an array index (Python int on
the `_stack`) or an object key (Python str on the `_stack`). -/
inductive Seg where
  | idx (n : Nat)
  | key (s : String)
deriving DecidableEq, Repr

/-- The transformer's `_stack`: bottom of the stack first, Python list order,
pushes and pops at the end. -/
abbrev Path := List Seg

/-- Reduction events delivered bottom-up by the lark LALR engine to the
transformer callbacks of `SelectorTransformer` (parser.py): rules
`start_array`, `end_array`, `key`, `pair`, `element` and `value`. -/
inductive Event where
  | startArray
  | endArray
  | pushKey (k : String)
  | popKey
  | incrElem
  | valueNode (v : Json)

/-- Pop the top (= Python `list.pop()`, the last entry); `none` models the
IndexError on an empty stack. -/
def popTop (p : Path) : Option Path :=
  match p.getLast? with
  | some _ => some p.dropLast
  | none => none

/-- The `_element` callback `self._stack[-1] += 1`; `none` models the
TypeError of incrementing a key (never reached for grammar-shaped event
streams) or the IndexError on an empty stack. -/
def incrTop (p : Path) : Option Path :=
  match p.getLast? with
  | some (Seg.idx n) => some (p.dropLast ++ [Seg.idx (n + 1)])
  | some (Seg.key _) => none
  | none => none

/-- One reduction event applied to the transformer state.  The state is the
path stack plus the record of the callback invocations made so far; the
callback itself is the identity (PrintingTransformer-style recorder), so the
recorded value is the reduced subtree. -/
def stepEvent (p : Path) (acc : List (Path × Json)) : Event → Option (Path × List (Path × Json))
  | Event.startArray => some (p ++ [Seg.idx 0], acc)
  | Event.endArray => (popTop p).map (fun q => (q, acc))
  | Event.pushKey k => some (p ++ [Seg.key k], acc)
  | Event.popKey => (popTop p).map (fun q => (q, acc))
  | Event.incrElem => (incrTop p).map (fun q => (q, acc))
  | Event.valueNode v => some (p, acc ++ [(p, v)])

/-- Run the transformer over a list of reduction events. -/
def runEvents : List Event → Path → List (Path × Json) → Option (Path × List (Path × Json))
  | [], p, acc => some (p, acc)
  | e :: es, p, acc =>
    match stepEvent p acc e with
    | none => none
    | some pa => runEvents es pa.1 pa.2

mutual

/-- The reduction events the lark LALR engine produces, bottom-up and left to
right, for one parsed document (grammar of parser.py): a leaf reduces to a
single `value` event; an array reduces `start_array`, then each element's
events followed by its `element` increment, then `end_array`, then its own
`value`; an object reduces each pair as `key`, the value's events, `pair`,
and finally its own `value`. -/
def events : Json → List Event
  | Json.arr xs => Event.startArray :: (eventsElems xs ++ (Event.endArray :: [Event.valueNode (Json.arr xs)]))
  | Json.obj kvs => eventsPairs kvs ++ [Event.valueNode (Json.obj kvs)]
  | v => [Event.valueNode v]

def eventsElems : List Json → List Event
  | [] => []
  | x :: xs => events x ++ (Event.incrElem :: eventsElems xs)

def eventsPairs : List (String × Json) → List Event
  | [] => []
  | (k, v) :: kvs => Event.pushKey k :: (events v ++ (Event.popKey :: eventsPairs kvs))

end

mutual

/-- Manual enumeration of the callback invocations for a document below path
`p`: children before parents, array elements at 0-based indices, object pairs
under their keys, and finally the node itself at `p`. -/
def expectedCalls (p : Path) : Json → List (Path × Json)
  | Json.arr xs => expectedElems p 0 xs ++ [(p, Json.arr xs)]
  | Json.obj kvs => expectedPairs p kvs ++ [(p, Json.obj kvs)]
  | v => [(p, v)]

def expectedElems (p : Path) (i : Nat) : List Json → List (Path × Json)
  | [] => []
  | x :: xs => expectedCalls (p ++ [Seg.idx i]) x ++ expectedElems p (i + 1) xs

def expectedPairs (p : Path) : List (String × Json) → List (Path × Json)
  | [] => []
  | (k, v) :: kvs => expectedCalls (p ++ [Seg.key k]) v ++ expectedPairs p kvs

end

mutual

/-- Number of value nodes of a document (one per null/bool/number/string/
array/object node). -/
def nodeCount : Json → Nat
  | Json.arr xs => nodeCountElems xs + 1
  | Json.obj kvs => nodeCountPairs kvs + 1
  | _ => 1

def nodeCountElems : List Json → Nat
  | [] => 0
  | x :: xs => nodeCount x + nodeCountElems xs

def nodeCountPairs : List (String × Json) → Nat
  | [] => 0
  | (_, v) :: kvs => nodeCount v + nodeCountPairs kvs

end


/-- The states of the writer automaton (`StreamState` of WriteStream.py). -/
inductive StreamState where
  | predoc
  | postdoc
  | in_array
  | in_object
  | in_pair
  | post_pair
  | post_elem
deriving DecidableEq, Repr

/-- Python exceptions the embedded code can raise.  RuntimeError (file
back-end) and ValueError (memory back-end) signalling an illegal transition
are the spec's ProtocolViolation and are both rendered as
`protocolViolation`; `indexError` is indexing an empty list;
`attributeError` is access to an undefined attribute; `typeError` is
json.JSONEncoder.default rejecting a value (and np.dtype applied to a
non-string); `unsupportedDType` is np.dtype applied to an unrecognised tag
string (the spec's UnsupportedDType); `arrayError` is np.array or
ndarray.view failing on malformed nested data. -/
inductive PyErr where
  | protocolViolation
  | indexError
  | attributeError
  | typeError
  | unsupportedDType
  | arrayError
deriving DecidableEq, Repr

/-- Element dtypes of the numeric codec (spec section 3: real64/complex128). -/
inductive DType where
  | float64
  | complex128
deriving DecidableEq, Repr

/-- A numpy array: dtype, shape, and flat row-major data; for `complex128`
the data holds the real/imag components interleaved, so its length is twice
the product of the shape. -/
structure NDArr where
  dtype : DType
  shape : List Nat
  data : List ℚ
deriving DecidableEq, Repr

/-- A Python value handed to a writer: either JSON-native data or one of the
two extension kinds handled by the numeric codec. -/
inductive PyVal where
  | json (j : Json)
  | complexVal (re im : ℚ)
  | ndarrayVal (a : NDArr)
deriving Repr

/-- An encoder as `json.dumps(obj, cls=...)` uses one: it turns the Python
value into JSON-native data or raises.  `cls=None` is `pureJsonEnc`. -/
abbrev Enc := PyVal → Except PyErr Json

/-- The behaviour of `json.dumps` without a codec: JSON-native data passes
through, extension values raise TypeError. -/
def pureJsonEnc : Enc := fun v =>
  match v with
  | PyVal.json j => Except.ok j
  | _ => Except.error PyErr.typeError

mutual

/-- Rendering of a JSON value to text, standing in for the platform
`json.dumps(obj, indent=...)`.  Number formatting, string escaping and the
indentation layout inside one dumped value are not inspected by any claim and
are abstracted (the `ind` parameter is accepted and ignored); all comma and
newline placement done by WriteStream.py itself is modelled exactly in the
writer operations below. -/
def dumpJson (ind : Nat) : Json → String
  | Json.null => "null"
  | Json.bool true => "true"
  | Json.bool false => "false"
  | Json.num (JNum.int n) => toString n
  | Json.num (JNum.float q) => toString q
  | Json.str s => "\"" ++ s ++ "\""
  | Json.arr xs => "[" ++ dumpJsonList ind xs ++ "]"
  | Json.obj kvs => "\x7b" ++ dumpJsonPairs ind kvs ++ "\x7d"

def dumpJsonList (ind : Nat) : List Json → String
  | [] => ""
  | [x] => dumpJson ind x
  | x :: y :: xs => dumpJson ind x ++ ", " ++ dumpJsonList ind (y :: xs)

def dumpJsonPairs (ind : Nat) : List (String × Json) → String
  | [] => ""
  | [(k, v)] => "\"" ++ k ++ "\": " ++ dumpJson ind v
  | (k, v) :: kv2 :: kvs => "\"" ++ k ++ "\": " ++ dumpJson ind v ++ ", " ++ dumpJsonPairs ind (kv2 :: kvs)

end

/-- Character-level model of `s.replace(chr(10), chr(10) + pad)` (the
re-indentation `FileWriteStream.write_value` applies to a dumped value):
every newline is followed by the current indentation. -/
def replaceNLChars (pad : List Char) : List Char → List Char
  | [] => []
  | c :: cs =>
    if c = Char.ofNat 10 then c :: (pad ++ replaceNLChars pad cs)
    else c :: replaceNLChars pad cs

/-- String wrapper of `replaceNLChars`. -/
def replaceNL (pad : String) (s : String) : String :=
  String.mk (replaceNLChars pad.data s.data)

/-- What `json.dumps(obj, cls=cls, indent=...)` produces: the encoder result
rendered to text, or the encoder's exception. -/
def pyDumps (enc : Enc) (ind : Nat) (v : PyVal) : Except PyErr String :=
  (enc v).map (dumpJson ind)

/-- The state of a `FileWriteStream`: indent width, current depth, the state
stack (the head here is the top of the Python list, `stack[-1]`), and the
text written to the sink so far. -/
structure FileState where
  indent : Nat
  depth : Int
  stack : List StreamState
  out : String
deriving DecidableEq, Repr

/-- A freshly constructed `FileWriteStream(file, indent)`. -/
def fileInit (ind : Nat) : FileState :=
  { indent := ind, depth := 0, stack := [StreamState.predoc], out := "" }

/-- Python's `' ' * (self.depth * self.indent)`: a negative repeat count
yields the empty string, which `Int.toNat` reproduces. -/
def padAt (s : FileState) : String :=
  String.mk (List.replicate (s.depth * (s.indent : Int)).toNat ' ')

/-- The `_post_value` state transitions of `FileWriteStream` (three
sequential `if`s whose results do not cascade, hence one match). -/
def postValue : StreamState → StreamState
  | StreamState.in_pair => StreamState.post_pair
  | StreamState.predoc => StreamState.postdoc
  | StreamState.in_array => StreamState.post_elem
  | t => t

/-- `FileWriteStream._post_value` on the state stack: IndexError when the
stack is empty. -/
def filePostValue (s : FileState) : FileState × Option PyErr :=
  match s.stack with
  | [] => (s, some PyErr.indexError)
  | t :: rest => ({ s with stack := postValue t :: rest }, none)

/-- `FileWriteStream.enter_array`: separator/newline bookkeeping by previous
state, write `[`, increment depth, push `in_array`.  The source checks no
legality here. -/
def fileEnterArray (s : FileState) : FileState × Option PyErr :=
  match s.stack with
  | [] => (s, some PyErr.indexError)
  | prev :: _ =>
    let s1 :=
      if prev = StreamState.post_pair ∨ prev = StreamState.post_elem then
        { s with out := s.out ++ ",\n" ++ padAt s }
      else if prev ≠ StreamState.in_pair then
        { s with out := s.out ++ "\n" ++ padAt s }
      else s
    ({ s1 with
        out := s1.out ++ "["
        depth := s1.depth + 1
        stack := StreamState.in_array :: s1.stack }, none)

/-- `FileWriteStream.enter_object`: same shape, with `predoc` writing only
the indent and the brace followed by a newline. -/
def fileEnterObject (s : FileState) : FileState × Option PyErr :=
  match s.stack with
  | [] => (s, some PyErr.indexError)
  | prev :: _ =>
    let s1 :=
      if prev = StreamState.in_pair then s
      else if prev = StreamState.predoc then { s with out := s.out ++ padAt s }
      else if prev = StreamState.post_pair ∨ prev = StreamState.post_elem then
        { s with out := s.out ++ ",\n" ++ padAt s }
      else { s with out := s.out ++ "\n" ++ padAt s }
    ({ s1 with
        out := s1.out ++ "\x7b\n"
        depth := s1.depth + 1
        stack := StreamState.in_object :: s1.stack }, none)

/-- The tail of `FileWriteStream.exit_array` once the top is `in_array`:
pop, decrement depth, close the bracket at the new depth, `_post_value`. -/
def fileExitArrayCore (s : FileState) : FileState × Option PyErr :=
  match s.stack with
  | [] => (s, some PyErr.indexError)
  | _ :: rest =>
    let s1 := { s with stack := rest, depth := s.depth - 1 }
    let s2 := { s1 with out := s1.out ++ padAt s1 ++ "]" }
    filePostValue s2

/-- `FileWriteStream.exit_array`: from `post_elem` the last element is
implicitly finalised (top set to `in_array`, a newline written) and the exit
recurses; from `in_array` the scope is popped; any other top raises
RuntimeError before writing anything. -/
def fileExitArray (s : FileState) : FileState × Option PyErr :=
  match s.stack with
  | [] => (s, some PyErr.indexError)
  | StreamState.post_elem :: rest =>
    fileExitArrayCore { s with stack := StreamState.in_array :: rest, out := s.out ++ "\n" }
  | StreamState.in_array :: _ => fileExitArrayCore s
  | _ :: _ => (s, some PyErr.protocolViolation)

/-- The tail of `FileWriteStream.exit_object` once the top is `in_object`. -/
def fileExitObjectCore (s : FileState) : FileState × Option PyErr :=
  match s.stack with
  | [] => (s, some PyErr.indexError)
  | _ :: rest =>
    let s1 := { s with stack := rest, depth := s.depth - 1 }
    let s2 := { s1 with out := s1.out ++ padAt s1 ++ "\x7d" }
    filePostValue s2

/-- `FileWriteStream.exit_object`: recovery from `post_pair`, pop from
`in_object`, RuntimeError otherwise. -/
def fileExitObject (s : FileState) : FileState × Option PyErr :=
  match s.stack with
  | [] => (s, some PyErr.indexError)
  | StreamState.post_pair :: rest =>
    fileExitObjectCore { s with stack := StreamState.in_object :: rest, out := s.out ++ "\n" }
  | StreamState.in_object :: _ => fileExitObjectCore s
  | _ :: _ => (s, some PyErr.protocolViolation)

/-- `json.dumps(key)` for the string keys the claims use. -/
def quoteStr (k : String) : String := "\"" ++ k ++ "\""

/-- `FileWriteStream.write_key`: a separator from `post_pair`, legal also
from `in_object`, RuntimeError from anything else (raised before writing);
transitions the top to `in_pair`. -/
def fileWriteKey (k : String) (s : FileState) : FileState × Option PyErr :=
  match s.stack with
  | [] => (s, some PyErr.indexError)
  | t :: rest =>
    if t = StreamState.post_pair then
      let s1 := { s with out := s.out ++ ",\n" }
      ({ s1 with
          out := s1.out ++ padAt s1 ++ quoteStr k ++ ": "
          stack := StreamState.in_pair :: rest }, none)
    else if t = StreamState.in_object then
      ({ s with
          out := s.out ++ padAt s ++ quoteStr k ++ ": "
          stack := StreamState.in_pair :: rest }, none)
    else (s, some PyErr.protocolViolation)

/-- The `in_array` branch of `FileWriteStream.write_value`: the newline and
indent are written before `json.dumps` runs, so they remain in the output
when the dump raises. -/
def fileWriteValueIn (enc : Enc) (v : PyVal) (s : FileState) : FileState × Option PyErr :=
  match s.stack with
  | [] => (s, some PyErr.indexError)
  | _ :: rest =>
    let s1 := { s with out := s.out ++ "\n" ++ padAt s }
    match pyDumps enc s1.indent v with
    | Except.error e => (s1, some e)
    | Except.ok str =>
      ({ s1 with
          out := s1.out ++ replaceNL (padAt s1) str
          stack := StreamState.post_elem :: rest }, none)

/-- `FileWriteStream.write_value`: RuntimeError from `in_object` (a key must
precede a value) and from `postdoc`; from `post_elem` a comma is written, the
top reset to `in_array` and the call recurses; the dump from `in_pair` and
`predoc` happens before any write, and — as in the source (WriteStream.py
line 263) — the `predoc` branch sets the top to `post_pair`, not
`postdoc`. -/
def fileWriteValue (enc : Enc) (v : PyVal) (s : FileState) : FileState × Option PyErr :=
  match s.stack with
  | [] => (s, some PyErr.indexError)
  | StreamState.in_object :: _ => (s, some PyErr.protocolViolation)
  | StreamState.in_array :: _ => fileWriteValueIn enc v s
  | StreamState.post_elem :: rest =>
    fileWriteValueIn enc v { s with out := s.out ++ ",", stack := StreamState.in_array :: rest }
  | StreamState.in_pair :: rest =>
    match pyDumps enc s.indent v with
    | Except.error e => (s, some e)
    | Except.ok str =>
      ({ s with
          out := s.out ++ replaceNL (padAt s) str
          stack := StreamState.post_pair :: rest }, none)
  | StreamState.predoc :: rest =>
    match pyDumps enc s.indent v with
    | Except.error e => (s, some e)
    | Except.ok str =>
      ({ s with
          out := s.out ++ replaceNL (padAt s) str
          stack := StreamState.post_pair :: rest }, none)
  | StreamState.postdoc :: _ => (s, some PyErr.protocolViolation)
  | StreamState.post_pair :: _ => (s, some PyErr.protocolViolation)

/-- `WriteStream.write_pair`: `write_key`, then `write_value`; when the value
write raises, `write_value(None)` runs and the original exception is
re-raised (unless the recovery write itself raises, in which case Python
propagates that one). -/
def fileWritePair (enc : Enc) (k : String) (v : PyVal) (s : FileState) : FileState × Option PyErr :=
  match fileWriteKey k s with
  | (s1, some e) => (s1, some e)
  | (s1, none) =>
    match fileWriteValue enc v s1 with
    | (s2, none) => (s2, none)
    | (s2, some e) =>
      match fileWriteValue pureJsonEnc (PyVal.json Json.null) s2 with
      | (s3, none) => (s3, some e)
      | (s3, some e2) => (s3, some e2)

/-- `FileWriteStream.unwind` as written in the source: the loop condition is
`self.stack[-1] != self.predoc and self.stack[-1] != self.predoc`, and
`self.predoc` is not an attribute of the instance or its classes (the enum
member lives on `StreamState`), so evaluating the condition raises
AttributeError on every call — after the IndexError of `self.stack[-1]` when
the stack is empty.  (The loop body would also call the undefined globals
`exit_array()` / `exit_object()`.) -/
def fileUnwind (s : FileState) : FileState × Option PyErr :=
  match s.stack with
  | [] => (s, some PyErr.indexError)
  | _ :: _ => (s, some PyErr.attributeError)

/-- Values held by the memory back-end: finished Python objects, and the
lists/dicts under construction. -/
inductive MemV where
  | scalar (v : PyVal)
  | list (xs : List MemV)
  | dict (kvs : List (String × MemV))

/-- Where a container under construction was inserted into its parent, so
the in-place mutation of Python object references can be replayed as a
write-back when the container is popped. -/
inductive Locus where
  | root
  | lastElem
  | atKey (k : String)

/-- The state of a `MemoryWriteStream`: the state stack and the value stack
(in both, the head here is the Python `[-1]` top; the Python `value[0]` root
is the last entry), plus `self.key`. -/
structure MemState where
  state : List StreamState
  value : List (MemV × Locus)
  curKey : String

/-- A freshly constructed `MemoryWriteStream()` (`self.key` is unset until
the first `write_key`; it is modelled as the empty string, and no reachable
path reads it before a `write_key`). -/
def memInit : MemState :=
  { state := [StreamState.predoc], value := [(MemV.list [], Locus.root)], curKey := "" }

/-- Python `dict.update(\x7bk: v\x7d)`: replace in place if the key exists,
append otherwise. -/
def updateKey (kvs : List (String × MemV)) (k : String) (v : MemV) : List (String × MemV) :=
  if kvs.any (fun p => p.1 == k) then kvs.map (fun p => if p.1 == k then (k, v) else p)
  else kvs ++ [(k, v)]

/-- The state-machine part of `MemoryWriteStream.write_value` after the
optional codec ran: append to the top list from `in_array`/`post_elem`/
`predoc`/`postdoc` (the separate `predoc` branch of the source that would
set `postdoc` is dead code, because `predoc` is already accepted by this
first test), update the top dict at `self.key` from `in_pair`, ValueError
from anything else.  Appending to a dict or updating a list would be
Python AttributeError. -/
def memInsert (x : MemV) (m : MemState) : MemState × Option PyErr :=
  match m.state with
  | [] => (m, some PyErr.indexError)
  | t :: rest =>
    if t = StreamState.in_array ∨ t = StreamState.post_elem ∨ t = StreamState.predoc
        ∨ t = StreamState.postdoc then
      match m.value with
      | (MemV.list xs, loc) :: vrest =>
        ({ m with
            state := StreamState.post_elem :: rest
            value := (MemV.list (xs ++ [x]), loc) :: vrest }, none)
      | (_, _) :: _ => (m, some PyErr.attributeError)
      | [] => (m, some PyErr.indexError)
    else if t = StreamState.in_pair then
      match m.value with
      | (MemV.dict kvs, loc) :: vrest =>
        ({ m with
            state := StreamState.post_pair :: rest
            value := (MemV.dict (updateKey kvs m.curKey x), loc) :: vrest }, none)
      | (_, _) :: _ => (m, some PyErr.attributeError)
      | [] => (m, some PyErr.indexError)
    else (m, some PyErr.protocolViolation)

/-- `MemoryWriteStream.write_value`: with a codec the value is passed through
`cls().default(value)` unconditionally before any state is read, so a codec
failure leaves the stream untouched. -/
def memWriteValue (cls : Option (PyVal → Except PyErr PyVal)) (v : PyVal) (m : MemState) :
    MemState × Option PyErr :=
  match cls with
  | some c =>
    match c v with
    | Except.error e => (m, some e)
    | Except.ok v2 => memInsert (MemV.scalar v2) m
  | none => memInsert (MemV.scalar v) m

/-- `MemoryWriteStream.enter_array`: a fresh list is inserted into the parent
through the same `write_value` path used for leaves, then pushed; an
exception from the insert aborts before the push. -/
def memEnterArray (m : MemState) : MemState × Option PyErr :=
  let loc := match m.state with
    | StreamState.in_pair :: _ => Locus.atKey m.curKey
    | _ => Locus.lastElem
  match memInsert (MemV.list []) m with
  | (m1, some e) => (m1, some e)
  | (m1, none) =>
    ({ m1 with
        state := StreamState.in_array :: m1.state
        value := (MemV.list [], loc) :: m1.value }, none)

/-- `MemoryWriteStream.enter_object`: same with a fresh dict. -/
def memEnterObject (m : MemState) : MemState × Option PyErr :=
  let loc := match m.state with
    | StreamState.in_pair :: _ => Locus.atKey m.curKey
    | _ => Locus.lastElem
  match memInsert (MemV.dict []) m with
  | (m1, some e) => (m1, some e)
  | (m1, none) =>
    ({ m1 with
        state := StreamState.in_object :: m1.state
        value := (MemV.dict [], loc) :: m1.value }, none)

/-- Replay, on pop, the in-place mutation Python performed through the object
reference: the popped container replaces the stale copy inserted into its
parent when the scope was entered. -/
def writeBack (child : MemV) (loc : Locus) : List (MemV × Locus) → List (MemV × Locus)
  | [] => []
  | (parent, ploc) :: vrest =>
    let parent2 :=
      match loc with
      | Locus.lastElem =>
        match parent with
        | MemV.list xs => MemV.list (xs.dropLast ++ [child])
        | p => p
      | Locus.atKey k =>
        match parent with
        | MemV.dict kvs => MemV.dict (updateKey kvs k child)
        | p => p
      | Locus.root => parent
    (parent2, ploc) :: vrest

/-- `MemoryWriteStream.exit_array`: legal from `post_elem` or `in_array`,
ValueError otherwise; pops both stacks. -/
def memExitArray (m : MemState) : MemState × Option PyErr :=
  match m.state with
  | [] => (m, some PyErr.indexError)
  | t :: rest =>
    if t ≠ StreamState.post_elem ∧ t ≠ StreamState.in_array then
      (m, some PyErr.protocolViolation)
    else
      match m.value with
      | [] => (m, some PyErr.indexError)
      | (child, loc) :: vrest =>
        ({ m with state := rest, value := writeBack child loc vrest }, none)

/-- `MemoryWriteStream.exit_object`: legal from `post_pair` or `in_object`,
ValueError otherwise. -/
def memExitObject (m : MemState) : MemState × Option PyErr :=
  match m.state with
  | [] => (m, some PyErr.indexError)
  | t :: rest =>
    if t ≠ StreamState.post_pair ∧ t ≠ StreamState.in_object then
      (m, some PyErr.protocolViolation)
    else
      match m.value with
      | [] => (m, some PyErr.indexError)
      | (child, loc) :: vrest =>
        ({ m with state := rest, value := writeBack child loc vrest }, none)

/-- `MemoryWriteStream.write_key`: legal from `post_pair` or `in_object`,
ValueError otherwise; records `self.key` and moves the top to `in_pair`. -/
def memWriteKey (k : String) (m : MemState) : MemState × Option PyErr :=
  match m.state with
  | [] => (m, some PyErr.indexError)
  | t :: rest =>
    if t ≠ StreamState.post_pair ∧ t ≠ StreamState.in_object then
      (m, some PyErr.protocolViolation)
    else ({ m with curKey := k, state := StreamState.in_pair :: rest }, none)

/-- `MemoryWriteStream.unwind`: a no-op at `predoc`; otherwise the state
stack is reset to `[postdoc]` and the value stack to the root alone
(Python `self.value[0]`, the last entry of the stack as stored here). -/
def memUnwind (m : MemState) : MemState × Option PyErr :=
  match m.state with
  | [] => (m, some PyErr.indexError)
  | t :: _ =>
    if t = StreamState.predoc then (m, none)
    else
      match m.value.getLast? with
      | none => (m, some PyErr.indexError)
      | some v0 => ({ m with state := [StreamState.postdoc], value := [v0] }, none)

/-- Python `d.pop(k)` on a dict rendered as an ordered pair list: the entry
for `k` is removed. -/
def removeKey (k : String) : List (String × Json) → List (String × Json)
  | [] => []
  | (k2, v) :: rest => if k2 == k then rest else (k2, v) :: removeKey k rest

/-- The dtype tag `str(obj.dtype)` writes / `np.dtype(...)` reads. -/
def dtypeStr : DType → String
  | DType.float64 => "float64"
  | DType.complex128 => "complex128"

/-- What `np.dtype(tag)` can yield for a recognised tag: the two dtypes this
codec itself produces, or any other numpy dtype (`int32`, `f8`, `c16`, ...),
on which the decoder silently builds and returns an array of that element
type. -/
inductive NpDtype where
  | float64
  | complex128
  | other (tag : String)
deriving DecidableEq, Repr

/-- Numpy dtype tags other than `float64`/`complex128` as modelled by the
concrete `npDtype` below: the plain scalar-type names and the unprefixed
type codes of numpy's dtype grammar.  The full grammar is open-ended
(endianness prefixes, parameterised tags such as `S10` or `datetime64[ns]`
are left out of this finite model); no theorem depends on the exact boundary
of this table — the dtype-tag claim is proved for every recogniser and only
instantiated at tags whose classification is certain. -/
def npOtherTags : List String :=
  ["bool", "bool_", "int8", "int16", "int32", "int64",
   "uint8", "uint16", "uint32", "uint64",
   "float16", "float32", "complex64",
   "int", "uint", "float", "complex", "double", "single", "half",
   "longdouble", "longlong", "ulonglong", "byte", "ubyte", "short", "ushort",
   "intc", "uintc", "intp", "uintp", "long", "ulong",
   "b1", "i1", "i2", "i4", "i8", "u1", "u2", "u4", "u8",
   "f2", "f4", "f8", "c8", "c16",
   "b", "e", "f", "d", "g", "i", "u", "l", "q"]

/-- Concrete model of the external `np.dtype(tag)` call: the two tags the
codec writes, then the other recognised numpy tags of `npOtherTags`, and a
raise on anything else (numpy's TypeError for an unparseable tag — the
spec's UnsupportedDType). -/
def npDtype (s : String) : Except PyErr NpDtype :=
  if s == "float64" then Except.ok NpDtype.float64
  else if s == "complex128" then Except.ok NpDtype.complex128
  else if npOtherTags.contains s then Except.ok (NpDtype.other s)
  else Except.error PyErr.unsupportedDType

/-- The shape of `obj.view(dtype=np.float64)` for a complex128 array: the
last axis doubles (each complex element becomes two float64 components). -/
def viewShape : List Nat → List Nat
  | [] => []
  | [d] => [2 * d]
  | d :: rest => d :: viewShape rest

/-- The converse `view(dtype=np.complex128)` of a float64 array: the last
axis halves; an odd last axis (or a 0-dimensional array) makes the view
raise. -/
def unviewShape : List Nat → Option (List Nat)
  | [] => none
  | [d] => if d % 2 = 0 then some [d / 2] else none
  | d :: rest => (unviewShape rest).map (fun r => d :: r)

/-- Split flat data into `d` consecutive chunks of `k` entries each (the
row-major slicing `ndarray.tolist` performs along one axis). -/
def chunkExact (k : Nat) : Nat → List ℚ → List (List ℚ)
  | 0, _ => []
  | d + 1, xs => xs.take k :: chunkExact k d (xs.drop k)

/-- Concatenation of chunks (row-major flattening). -/
def flatQ : List (List ℚ) → List ℚ
  | [] => []
  | c :: cs => c ++ flatQ cs

/-- `ndarray.tolist()`: flat row-major data shaped into nested lists; the
empty shape is the 0-dimensional scalar case. -/
def toNested (shape : List Nat) (xs : List ℚ) : Json :=
  match shape with
  | [] => Json.num (JNum.float (xs.headD 0))
  | d :: rest => Json.arr ((chunkExact rest.prod d xs).map (fun c => toNested rest c))

mutual

/-- `np.array(nested)`: infer the shape from the nesting (the first element
fixes the sub-shape, ragged input fails) and flatten the data row-major.
Python bools coerce to 0.0/1.0; other non-numeric leaves make `np.array`
raise for a float dtype. -/
def fromNested : Json → Option (List Nat × List ℚ)
  | Json.num (JNum.float q) => some ([], [q])
  | Json.num (JNum.int n) => some ([], [(n : ℚ)])
  | Json.bool b => some ([], [if b then 1 else 0])
  | Json.arr [] => some ([0], [])
  | Json.arr (x :: xs) =>
    match fromNested x with
    | none => none
    | some (s, d0) =>
      match fromNestedList s xs with
      | none => none
      | some drest => some ((xs.length + 1) :: s, d0 ++ drest)
  | _ => none

def fromNestedList (s : List Nat) : List Json → Option (List ℚ)
  | [] => some []
  | y :: ys =>
    match fromNested y with
    | none => none
    | some (sy, dy) =>
      if sy = s then
        match fromNestedList s ys with
        | none => none
        | some rest => some (dy ++ rest)
      else none

end

/-- What `NumericDecoder.dict_to_object` can return: a reinterpreted complex
number, a reconstituted array of one of the codec's own dtypes, an array of
some other recognised numpy dtype (`np.array(array, dtype)`, kept as the tag
with the shape and the uncast numeric data — the element cast to the tag's
type is not modelled, no claim inspects these values), or the dict passed
through. -/
inductive DecResult where
  | complex (re im : ℚ)
  | ndarr (a : NDArr)
  | ndarrOther (tag : String) (shape : List Nat) (data : List ℚ)
  | plain (kvs : List (String × Json))

/-- The array arm of `dict_to_object`: for the complex128 tag,
`np.array(array, np.float64)` followed by `.view(dtype=np.complex128)`;
for every other recognised dtype, `np.array(array, dtype)` is silently
returned. -/
def decodeArray (dt : NpDtype) (av : Json) : Except PyErr DecResult :=
  match fromNested av with
  | none => Except.error PyErr.arrayError
  | some (sh, da) =>
    match dt with
    | NpDtype.float64 => Except.ok (DecResult.ndarr { dtype := DType.float64, shape := sh, data := da })
    | NpDtype.complex128 =>
      match unviewShape sh with
      | none => Except.error PyErr.arrayError
      | some sh2 => Except.ok (DecResult.ndarr { dtype := DType.complex128, shape := sh2, data := da })
    | NpDtype.other tag => Except.ok (DecResult.ndarrOther tag sh da)

/-- The dtype/array check of `dict_to_object` (reached with the dict as left
by the real/imag step), generic in the external `np.dtype` recogniser `npd`:
when both fields are present the dtype tag goes through `npd` (whose failure
— numpy raising on an unrecognised tag — propagates to the caller unchanged;
a non-string tag raises TypeError) and the array is decoded — the function
returns without putting the popped fields back; otherwise the dict is
returned as is. -/
def decodeDtypePartGen (npd : String → Except PyErr NpDtype)
    (d : List (String × Json)) : Except PyErr DecResult :=
  match d.lookup "dtype", d.lookup "array" with
  | some dv, some av =>
    match dv with
    | Json.str s =>
      match npd s with
      | Except.error e => Except.error e
      | Except.ok dt => decodeArray dt av
    | _ => Except.error PyErr.typeError
  | _, _ => Except.ok (DecResult.plain d)

/-- The dtype/array check with the concrete `np.dtype` model. -/
def decodeDtypePart (d : List (String × Json)) : Except PyErr DecResult :=
  decodeDtypePartGen npDtype d

/-- `NumericDecoder.dict_to_object` (Coding.py), generic in the external
`np.dtype` recogniser: when both `real` and `imag` are present they are
popped first; only if both were floats is the complex number returned —
otherwise the dict continues (with the two fields already removed) into the
dtype/array check. -/
def dict_to_objectGen (npd : String → Except PyErr NpDtype)
    (d : List (String × Json)) : Except PyErr DecResult :=
  match d.lookup "real", d.lookup "imag" with
  | some rv, some iv =>
    let d1 := removeKey "imag" (removeKey "real" d)
    match rv, iv with
    | Json.num (JNum.float re), Json.num (JNum.float im) => Except.ok (DecResult.complex re im)
    | _, _ => decodeDtypePartGen npd d1
  | _, _ => decodeDtypePartGen npd d

/-- `NumericDecoder.dict_to_object` with the concrete `np.dtype` model. -/
def dict_to_object (d : List (String × Json)) : Except PyErr DecResult :=
  dict_to_objectGen npDtype d

/-- `NumericEncoder.default` on a complex number: the ordered dict
`\x7b"real": obj.real, "imag": obj.imag\x7d` (both Python floats). -/
def encodeComplex (re im : ℚ) : List (String × Json) :=
  [("real", Json.num (JNum.float re)), ("imag", Json.num (JNum.float im))]

/-- `NumericEncoder.default` on a numpy array: a complex array is first
viewed as float64 (interleaved components, last axis doubled), then
`\x7b"dtype": str(obj.dtype), "array": data.tolist()\x7d`. -/
def encodeNDArr (a : NDArr) : List (String × Json) :=
  [("dtype", Json.str (dtypeStr a.dtype)),
   ("array", toNested (if a.dtype = DType.complex128 then viewShape a.shape else a.shape) a.data)]

/-- `NumericEncoder().default` as `MemoryWriteStream.write_value` calls it:
extension values convert to their canonical object shape; everything else
falls through to `json.JSONEncoder.default`, which raises TypeError for
every value, JSON-native ones included. -/
def numericDefault : PyVal → Except PyErr PyVal
  | PyVal.complexVal re im => Except.ok (PyVal.json (Json.obj (encodeComplex re im)))
  | PyVal.ndarrayVal a => Except.ok (PyVal.json (Json.obj (encodeNDArr a)))
  | PyVal.json _ => Except.error PyErr.typeError

/-- `json.dumps(obj, cls=NumericEncoder)` as the file back-end uses it:
JSON-native data passes through, extension values go through the codec. -/
def numericEnc : Enc := fun v =>
  match v with
  | PyVal.json j => Except.ok j
  | PyVal.complexVal re im => Except.ok (Json.obj (encodeComplex re im))
  | PyVal.ndarrayVal a => Except.ok (Json.obj (encodeNDArr a))

/-- The sample document of the spec's path-correctness property,
`\x7b"a": [1, \x7b"b": 2\x7d]\x7d`; the lark grammar parses all numbers with
`float`. -/
def sampleDoc : Json :=
  Json.obj [("a", Json.arr [Json.num (JNum.float 1), Json.obj [("b", Json.num (JNum.float 2))]])]

/-- Did the JSON decoder produce a Python float here (`isinstance(x, float)`)? -/
def isFloatNum : Json → Bool
  | Json.num (JNum.float _) => true
  | _ => false

theorem popTop_concat (p : Path) (a : Seg) : popTop (p ++ [a]) = some p := by
  simp [popTop]

theorem incrTop_concat (p : Path) (n : Nat) :
    incrTop (p ++ [Seg.idx n]) = some (p ++ [Seg.idx (n + 1)]) := by
  simp [incrTop]

theorem runEvents_append (l1 l2 : List Event) (p : Path) (acc : List (Path × Json)) :
    runEvents (l1 ++ l2) p acc =
      (runEvents l1 p acc).bind (fun pa => runEvents l2 pa.1 pa.2) := by
  induction l1 generalizing p acc with
  | nil => simp [runEvents]
  | cons e es ih =>
    simp only [List.cons_append, runEvents]
    cases stepEvent p acc e with
    | none => rfl
    | some pa => exact ih pa.1 pa.2

mutual

theorem runEvents_events (d : Json) (p : Path) (acc : List (Path × Json)) :
    runEvents (events d) p acc = some (p, acc ++ expectedCalls p d) := by
  match d with
  | Json.null => simp [events, expectedCalls, runEvents, stepEvent]
  | Json.bool b => simp [events, expectedCalls, runEvents, stepEvent]
  | Json.num n => simp [events, expectedCalls, runEvents, stepEvent]
  | Json.str s => simp [events, expectedCalls, runEvents, stepEvent]
  | Json.arr xs =>
    rw [show events (Json.arr xs)
        = Event.startArray :: (eventsElems xs ++ (Event.endArray :: [Event.valueNode (Json.arr xs)])) from rfl]
    rw [show runEvents (Event.startArray :: (eventsElems xs ++ (Event.endArray :: [Event.valueNode (Json.arr xs)]))) p acc
        = runEvents (eventsElems xs ++ (Event.endArray :: [Event.valueNode (Json.arr xs)])) (p ++ [Seg.idx 0]) acc from rfl]
    rw [runEvents_append, runEvents_elems xs p 0 acc, Option.some_bind]
    simp [runEvents, stepEvent, popTop_concat, expectedCalls, List.append_assoc]
  | Json.obj kvs =>
    rw [show events (Json.obj kvs) = eventsPairs kvs ++ [Event.valueNode (Json.obj kvs)] from rfl]
    rw [runEvents_append, runEvents_pairs kvs p acc, Option.some_bind]
    simp [runEvents, stepEvent, expectedCalls, List.append_assoc]

theorem runEvents_elems (xs : List Json) (p : Path) (i : Nat) (acc : List (Path × Json)) :
    runEvents (eventsElems xs) (p ++ [Seg.idx i]) acc =
      some (p ++ [Seg.idx (i + xs.length)], acc ++ expectedElems p i xs) := by
  match xs with
  | [] => simp [eventsElems, runEvents, expectedElems]
  | x :: xs2 =>
    rw [show eventsElems (x :: xs2) = events x ++ (Event.incrElem :: eventsElems xs2) from rfl]
    rw [runEvents_append, runEvents_events x (p ++ [Seg.idx i]) acc, Option.some_bind]
    rw [show runEvents (Event.incrElem :: eventsElems xs2) (p ++ [Seg.idx i]) (acc ++ expectedCalls (p ++ [Seg.idx i]) x)
        = match stepEvent (p ++ [Seg.idx i]) (acc ++ expectedCalls (p ++ [Seg.idx i]) x) Event.incrElem with
          | none => none
          | some pa => runEvents (eventsElems xs2) pa.1 pa.2 from rfl]
    rw [show stepEvent (p ++ [Seg.idx i]) (acc ++ expectedCalls (p ++ [Seg.idx i]) x) Event.incrElem
        = (incrTop (p ++ [Seg.idx i])).map (fun q => (q, acc ++ expectedCalls (p ++ [Seg.idx i]) x)) from rfl]
    rw [incrTop_concat]
    simp only [Option.map_some']
    rw [runEvents_elems xs2 p (i + 1) (acc ++ expectedCalls (p ++ [Seg.idx i]) x)]
    rw [show expectedElems p i (x :: xs2) = expectedCalls (p ++ [Seg.idx i]) x ++ expectedElems p (i + 1) xs2 from rfl]
    have harith : i + 1 + xs2.length = i + (x :: xs2).length := by
      simp [List.length_cons]; omega
    rw [harith, List.append_assoc]

theorem runEvents_pairs (kvs : List (String × Json)) (p : Path) (acc : List (Path × Json)) :
    runEvents (eventsPairs kvs) p acc = some (p, acc ++ expectedPairs p kvs) := by
  match kvs with
  | [] => simp [eventsPairs, runEvents, expectedPairs]
  | (k, v) :: kvs2 =>
    rw [show eventsPairs ((k, v) :: kvs2) = Event.pushKey k :: (events v ++ (Event.popKey :: eventsPairs kvs2)) from rfl]
    rw [show runEvents (Event.pushKey k :: (events v ++ (Event.popKey :: eventsPairs kvs2))) p acc
        = runEvents (events v ++ (Event.popKey :: eventsPairs kvs2)) (p ++ [Seg.key k]) acc from rfl]
    rw [runEvents_append, runEvents_events v (p ++ [Seg.key k]) acc, Option.some_bind]
    rw [show runEvents (Event.popKey :: eventsPairs kvs2) (p ++ [Seg.key k]) (acc ++ expectedCalls (p ++ [Seg.key k]) v)
        = match stepEvent (p ++ [Seg.key k]) (acc ++ expectedCalls (p ++ [Seg.key k]) v) Event.popKey with
          | none => none
          | some pa => runEvents (eventsPairs kvs2) pa.1 pa.2 from rfl]
    rw [show stepEvent (p ++ [Seg.key k]) (acc ++ expectedCalls (p ++ [Seg.key k]) v) Event.popKey
        = (popTop (p ++ [Seg.key k])).map (fun q => (q, acc ++ expectedCalls (p ++ [Seg.key k]) v)) from rfl]
    rw [popTop_concat]
    simp only [Option.map_some']
    rw [runEvents_pairs kvs2 p (acc ++ expectedCalls (p ++ [Seg.key k]) v)]
    rw [show expectedPairs p ((k, v) :: kvs2) = expectedCalls (p ++ [Seg.key k]) v ++ expectedPairs p kvs2 from rfl]
    rw [List.append_assoc]

end

mutual

theorem expectedCalls_length (p : Path) (d : Json) :
    (expectedCalls p d).length = nodeCount d := by
  match d with
  | Json.null => simp [expectedCalls, nodeCount]
  | Json.bool b => simp [expectedCalls, nodeCount]
  | Json.num n => simp [expectedCalls, nodeCount]
  | Json.str s => simp [expectedCalls, nodeCount]
  | Json.arr xs =>
    rw [show expectedCalls p (Json.arr xs) = expectedElems p 0 xs ++ [(p, Json.arr xs)] from rfl]
    rw [show nodeCount (Json.arr xs) = nodeCountElems xs + 1 from rfl]
    rw [List.length_append, expectedElems_length p 0 xs]
    simp
  | Json.obj kvs =>
    rw [show expectedCalls p (Json.obj kvs) = expectedPairs p kvs ++ [(p, Json.obj kvs)] from rfl]
    rw [show nodeCount (Json.obj kvs) = nodeCountPairs kvs + 1 from rfl]
    rw [List.length_append, expectedPairs_length p kvs]
    simp

theorem expectedElems_length (p : Path) (i : Nat) (xs : List Json) :
    (expectedElems p i xs).length = nodeCountElems xs := by
  match xs with
  | [] => simp [expectedElems, nodeCountElems]
  | x :: xs2 =>
    rw [show expectedElems p i (x :: xs2) = expectedCalls (p ++ [Seg.idx i]) x ++ expectedElems p (i + 1) xs2 from rfl]
    rw [show nodeCountElems (x :: xs2) = nodeCount x + nodeCountElems xs2 from rfl]
    rw [List.length_append, expectedCalls_length, expectedElems_length p (i + 1) xs2]

theorem expectedPairs_length (p : Path) (kvs : List (String × Json)) :
    (expectedPairs p kvs).length = nodeCountPairs kvs := by
  match kvs with
  | [] => simp [expectedPairs, nodeCountPairs]
  | (k, v) :: kvs2 =>
    rw [show expectedPairs p ((k, v) :: kvs2) = expectedCalls (p ++ [Seg.key k]) v ++ expectedPairs p kvs2 from rfl]
    rw [show nodeCountPairs ((k, v) :: kvs2) = nodeCount v + nodeCountPairs kvs2 from rfl]
    rw [List.length_append, expectedCalls_length, expectedPairs_length p kvs2]

end

theorem chunkExact_length (k d : Nat) (xs : List ℚ) : (chunkExact k d xs).length = d := by
  induction d generalizing xs with
  | zero => simp [chunkExact]
  | succ d2 ih => simp [chunkExact, ih]

theorem chunkExact_flat (k d : Nat) (xs : List ℚ) (h : xs.length = d * k) :
    flatQ (chunkExact k d xs) = xs := by
  induction d generalizing xs with
  | zero =>
    have hx : xs = [] := List.eq_nil_of_length_eq_zero (by omega)
    simp [chunkExact, flatQ, hx]
  | succ d2 ih =>
    have hdrop : (xs.drop k).length = d2 * k := by
      simp [List.length_drop, h, Nat.succ_mul]
    rw [show chunkExact k (d2 + 1) xs = xs.take k :: chunkExact k d2 (xs.drop k) from rfl]
    rw [show flatQ (xs.take k :: chunkExact k d2 (xs.drop k))
        = xs.take k ++ flatQ (chunkExact k d2 (xs.drop k)) from rfl]
    rw [ih (xs.drop k) hdrop, List.take_append_drop]

theorem chunkExact_mem_length (k d : Nat) (xs : List ℚ) (h : xs.length = d * k) :
    ∀ c ∈ chunkExact k d xs, c.length = k := by
  induction d generalizing xs with
  | zero => simp [chunkExact]
  | succ d2 ih =>
    intro c hc
    rw [show chunkExact k (d2 + 1) xs = xs.take k :: chunkExact k d2 (xs.drop k) from rfl] at hc
    rcases List.mem_cons.mp hc with hc1 | hc2
    · subst hc1
      rw [List.length_take, h, Nat.succ_mul]
      omega
    · exact ih (xs.drop k) (by simp [List.length_drop, h, Nat.succ_mul]) c hc2

theorem fromNestedList_chunks (rest : List Nat) (cs : List (List ℚ))
    (h : ∀ c ∈ cs, fromNested (toNested rest c) = some (rest, c)) :
    fromNestedList rest (cs.map (fun c => toNested rest c)) = some (flatQ cs) := by
  induction cs with
  | nil => simp [fromNestedList, flatQ]
  | cons c cs2 ih =>
    rw [show (c :: cs2).map (fun c2 => toNested rest c2)
        = toNested rest c :: cs2.map (fun c2 => toNested rest c2) from rfl]
    rw [show fromNestedList rest (toNested rest c :: cs2.map (fun c2 => toNested rest c2))
        = match fromNested (toNested rest c) with
          | none => none
          | some (sy, dy) =>
            if sy = rest then
              match fromNestedList rest (cs2.map (fun c2 => toNested rest c2)) with
              | none => none
              | some r2 => some (dy ++ r2)
            else none from rfl]
    rw [h c (List.mem_cons_self c cs2), ih (fun c2 hc2 => h c2 (List.mem_cons_of_mem c hc2))]
    simp [flatQ]

theorem toNested_fromNested (shape : List Nat) (xs : List ℚ)
    (hpos : ∀ d ∈ shape, 0 < d) (hlen : xs.length = shape.prod) (hne : shape ≠ []) :
    fromNested (toNested shape xs) = some (shape, xs) := by
  induction shape generalizing xs with
  | nil => exact absurd rfl hne
  | cons d rest ih =>
    have hd : 0 < d := hpos d (List.mem_cons_self d rest)
    have hlen2 : xs.length = d * rest.prod := by
      rw [hlen, List.prod_cons]
    have hchunk : ∀ c ∈ chunkExact rest.prod d xs, fromNested (toNested rest c) = some (rest, c) := by
      intro c hc
      have hclen : c.length = rest.prod := chunkExact_mem_length rest.prod d xs hlen2 c hc
      cases rest with
      | nil =>
        have h1 : c.length = 1 := by simpa using hclen
        obtain ⟨q, hq⟩ := List.length_eq_one.mp h1
        subst hq
        rfl
      | cons r rs =>
        exact ih c (fun d2 hd2 => hpos d2 (List.mem_cons_of_mem d hd2)) hclen (by simp)
    obtain ⟨d2, hd2⟩ : ∃ d2, d = d2 + 1 := ⟨d - 1, by omega⟩
    subst hd2
    have hmem0 : xs.take rest.prod ∈ chunkExact rest.prod (d2 + 1) xs := by
      rw [show chunkExact rest.prod (d2 + 1) xs
          = xs.take rest.prod :: chunkExact rest.prod d2 (xs.drop rest.prod) from rfl]
      exact List.mem_cons_self _ _
    have h1 : fromNested (toNested rest (xs.take rest.prod)) = some (rest, xs.take rest.prod) :=
      hchunk _ hmem0
    have h2 : fromNestedList rest
          ((chunkExact rest.prod d2 (xs.drop rest.prod)).map (fun c => toNested rest c))
        = some (flatQ (chunkExact rest.prod d2 (xs.drop rest.prod))) := by
      refine fromNestedList_chunks rest _ ?_
      intro c hc
      refine hchunk c ?_
      rw [show chunkExact rest.prod (d2 + 1) xs
          = xs.take rest.prod :: chunkExact rest.prod d2 (xs.drop rest.prod) from rfl]
      exact List.mem_cons_of_mem _ hc
    have hflat : xs.take rest.prod ++ flatQ (chunkExact rest.prod d2 (xs.drop rest.prod)) = xs := by
      rw [chunkExact_flat rest.prod d2 (xs.drop rest.prod) (by
        rw [List.length_drop, hlen2, Nat.succ_mul]
        omega)]
      exact List.take_append_drop _ xs
    rw [show toNested ((d2 + 1) :: rest) xs
        = Json.arr ((chunkExact rest.prod (d2 + 1) xs).map (fun c => toNested rest c)) from rfl]
    rw [show chunkExact rest.prod (d2 + 1) xs
        = xs.take rest.prod :: chunkExact rest.prod d2 (xs.drop rest.prod) from rfl]
    rw [List.map_cons]
    simp only [fromNested, h1, h2]
    simp only [List.length_map, chunkExact_length, hflat]

theorem viewShape_ne_nil (s : List Nat) (h : s ≠ []) : viewShape s ≠ [] := by
  cases s with
  | nil => exact absurd rfl h
  | cons d rest =>
    cases rest with
    | nil => simp [viewShape]
    | cons r rs => simp [viewShape]

theorem viewShape_pos (s : List Nat) (h : ∀ d ∈ s, 0 < d) : ∀ d ∈ viewShape s, 0 < d := by
  induction s with
  | nil => simp [viewShape]
  | cons d rest ih =>
    cases rest with
    | nil =>
      intro d2 hd2
      rw [show viewShape [d] = [2 * d] from rfl] at hd2
      have := h d (List.mem_cons_self d [])
      simp at hd2
      omega
    | cons r rs =>
      intro d2 hd2
      rw [show viewShape (d :: r :: rs) = d :: viewShape (r :: rs) from rfl] at hd2
      rcases List.mem_cons.mp hd2 with h1 | h2
      · subst h1; exact h d2 (List.mem_cons_self d2 _)
      · exact ih (fun d3 hd3 => h d3 (List.mem_cons_of_mem d hd3)) d2 h2

theorem viewShape_prod (s : List Nat) (h : s ≠ []) : (viewShape s).prod = 2 * s.prod := by
  induction s with
  | nil => exact absurd rfl h
  | cons d rest ih =>
    cases rest with
    | nil => simp [viewShape]
    | cons r rs =>
      rw [show viewShape (d :: r :: rs) = d :: viewShape (r :: rs) from rfl]
      rw [List.prod_cons, List.prod_cons, ih (by simp)]
      ring

theorem unview_view (s : List Nat) (h : s ≠ []) : unviewShape (viewShape s) = some s := by
  induction s with
  | nil => exact absurd rfl h
  | cons d rest ih =>
    cases rest with
    | nil =>
      rw [show viewShape [d] = [2 * d] from rfl]
      rw [show unviewShape [2 * d] = if 2 * d % 2 = 0 then some [2 * d / 2] else none from rfl]
      have h1 : 2 * d % 2 = 0 := by omega
      have h2 : 2 * d / 2 = d := by omega
      rw [h1, h2]
      simp
    | cons r rs =>
      have hne : viewShape (r :: rs) ≠ [] := viewShape_ne_nil _ (by simp)
      obtain ⟨a, as, hcons⟩ := List.exists_cons_of_ne_nil hne
      rw [show viewShape (d :: r :: rs) = d :: viewShape (r :: rs) from rfl]
      rw [hcons]
      rw [show unviewShape (d :: a :: as) = (unviewShape (a :: as)).map (fun r2 => d :: r2) from rfl]
      rw [← hcons, ih (by simp)]
      rfl

theorem lookup_removeKey (k k2 : String) (d : List (String × Json)) (hne : k ≠ k2) :
    (removeKey k2 d).lookup k = d.lookup k := by
  induction d with
  | nil => rfl
  | cons p rest ih =>
    obtain ⟨pk, pv⟩ := p
    by_cases h : pk = k2
    · subst h
      have h1 : (pk == pk) = true := beq_self_eq_true pk
      have h2 : (k == pk) = false := beq_eq_false_iff_ne.mpr hne
      simp [removeKey, List.lookup, h1, h2]
    · have h1 : (pk == k2) = false := beq_eq_false_iff_ne.mpr h
      by_cases h3 : k = pk
      · subst h3
        simp [removeKey, List.lookup, h1]
      · have h4 : (k == pk) = false := beq_eq_false_iff_ne.mpr h3
        simp [removeKey, List.lookup, h1, h4, ih]

theorem dict_to_object_nonfloat (d : List (String × Json)) (rv iv : Json)
    (h1 : d.lookup "real" = some rv) (h2 : d.lookup "imag" = some iv)
    (h3 : (isFloatNum rv && isFloatNum iv) = false) :
    dict_to_object d = decodeDtypePart (removeKey "imag" (removeKey "real" d)) := by
  simp only [dict_to_object, dict_to_objectGen, h1, h2]
  rcases rv with _ | b1 | n1 | s1 | x1 | o1 <;>
    rcases iv with _ | b2 | n2 | s2 | x2 | o2 <;>
    (try rcases n1 with n1i | n1f) <;>
    (try rcases n2 with n2i | n2f) <;>
    simp_all [isFloatNum, decodeDtypePart]

/-- C6: the numeric codec encodes a complex number `(re, im)` to the object
with the fields `real` and `imag` holding those floats, and decoding that
object yields the same complex number back; a complex-typed array (any
nonempty shape with positive extents, interleaved data of matching length)
encodes to the dtype-tagged object and decodes back to an array equal to the
original — difference exactly zero, no value is altered. -/
theorem C6_numeric_codec_roundtrip :
    (∀ re im : ℚ,
      encodeComplex re im
        = [("real", Json.num (JNum.float re)), ("imag", Json.num (JNum.float im))] ∧
      dict_to_object (encodeComplex re im) = Except.ok (DecResult.complex re im)) ∧
    (∀ a : NDArr, a.dtype = DType.complex128 → a.shape ≠ [] → (∀ d ∈ a.shape, 0 < d) →
      a.data.length = 2 * a.shape.prod →
      dict_to_object (encodeNDArr a) = Except.ok (DecResult.ndarr a)) := by
  constructor
  · intro re im
    exact ⟨rfl, rfl⟩
  · intro a hdt hne hpos hlen
    obtain ⟨dt, shape, data⟩ := a
    dsimp only at hdt hne hpos hlen
    subst hdt
    have hlen2 : data.length = (viewShape shape).prod := by
      rw [viewShape_prod shape hne]
      exact hlen
    have he : encodeNDArr (NDArr.mk DType.complex128 shape data)
        = [("dtype", Json.str "complex128"),
           ("array", toNested (viewShape shape) data)] := by
      simp [encodeNDArr, dtypeStr]
    rw [he]
    rw [show dict_to_object
          [("dtype", Json.str "complex128"), ("array", toNested (viewShape shape) data)]
        = decodeArray NpDtype.complex128 (toNested (viewShape shape) data) from rfl]
    simp only [decodeArray,
      toNested_fromNested (viewShape shape) data (viewShape_pos shape hpos) hlen2
        (viewShape_ne_nil shape hne),
      unview_view shape hne]

/-- C6 counterexample for the unrestricted claim: a complex array with a
zero extent followed by further axes, shape `[2, 0, 3]`, does not round-trip
— `tolist` renders it as `[[], []]`, from which `np.array` can only infer the
shape `[2, 0]`, so the decoded array has a different shape than the
original (and subtracting them would not even broadcast). -/
theorem C6_degenerate_shape_counterexample :
    dict_to_object (encodeNDArr (NDArr.mk DType.complex128 [2, 0, 3] []))
      = Except.ok (DecResult.ndarr (NDArr.mk DType.complex128 [2, 0] [])) ∧
    dict_to_object (encodeNDArr (NDArr.mk DType.complex128 [2, 0, 3] []))
      ≠ Except.ok (DecResult.ndarr (NDArr.mk DType.complex128 [2, 0, 3] [])) := by
  constructor
  · rfl
  · intro h
    rw [show dict_to_object (encodeNDArr (NDArr.mk DType.complex128 [2, 0, 3] []))
        = Except.ok (DecResult.ndarr (NDArr.mk DType.complex128 [2, 0] [])) from rfl] at h
    injection h with h2
    injection h2 with h3
    exact absurd h3 (by decide)

/-- C6 witness: the concrete 2-by-2 complex array and the complex scalar
3 + 4i round-trip through the codec. -/
theorem C6_numeric_codec_roundtrip_witness :
    (NDArr.mk DType.complex128 [2, 2] [1, 2, 3, 4, 5, 6, 7, 8]).dtype = DType.complex128 ∧
    (NDArr.mk DType.complex128 [2, 2] [1, 2, 3, 4, 5, 6, 7, 8]).shape ≠ [] ∧
    (∀ d ∈ (NDArr.mk DType.complex128 [2, 2] [1, 2, 3, 4, 5, 6, 7, 8]).shape, 0 < d) ∧
    (NDArr.mk DType.complex128 [2, 2] [1, 2, 3, 4, 5, 6, 7, 8]).data.length
      = 2 * (NDArr.mk DType.complex128 [2, 2] [1, 2, 3, 4, 5, 6, 7, 8]).shape.prod ∧
    dict_to_object (encodeNDArr (NDArr.mk DType.complex128 [2, 2] [1, 2, 3, 4, 5, 6, 7, 8]))
      = Except.ok (DecResult.ndarr (NDArr.mk DType.complex128 [2, 2] [1, 2, 3, 4, 5, 6, 7, 8])) ∧
    dict_to_object (encodeComplex 3 4) = Except.ok (DecResult.complex 3 4) :=
  ⟨rfl, by decide, by decide, by decide,
   C6_numeric_codec_roundtrip.2 (NDArr.mk DType.complex128 [2, 2] [1, 2, 3, 4, 5, 6, 7, 8])
     rfl (by decide) (by decide) (by decide),
   (C6_numeric_codec_roundtrip.1 3 4).2⟩

/-- C7 counterexample: decoding the object with `real` an int and `imag` a
float does not pass it through unchanged — both fields are popped before the
float check and never restored, so the empty object comes back. -/
theorem C7_passthrough_counterexample :
    dict_to_object [("real", Json.num (JNum.int 1)), ("imag", Json.num (JNum.float 2))]
      = Except.ok (DecResult.plain []) ∧
    dict_to_object [("real", Json.num (JNum.int 1)), ("imag", Json.num (JNum.float 2))]
      ≠ Except.ok (DecResult.plain
          [("real", Json.num (JNum.int 1)), ("imag", Json.num (JNum.float 2))]) := by
  constructor
  · rfl
  · intro h
    rw [show dict_to_object [("real", Json.num (JNum.int 1)), ("imag", Json.num (JNum.float 2))]
        = Except.ok (DecResult.plain []) from rfl] at h
    injection h with h2
    injection h2 with h3
    exact List.noConfusion h3

/-- C7 amended: an object is reinterpreted as complex exactly when both
`real` and `imag` are present and both hold floats; when both are present but
not both floats, the object continues as a plain object with those two fields
removed (the source pops them before the float check); only when at least one
of the two fields is absent does the object pass through with all fields
intact — in each case subject to the separate dtype/array rule, excluded here
by the `dtype` lookup hypotheses. -/
theorem C7_complex_reinterpretation_amended :
    (∀ (d : List (String × Json)) (re im : ℚ),
      d.lookup "real" = some (Json.num (JNum.float re)) →
      d.lookup "imag" = some (Json.num (JNum.float im)) →
      dict_to_object d = Except.ok (DecResult.complex re im)) ∧
    (∀ (d : List (String × Json)) (rv iv : Json),
      d.lookup "real" = some rv → d.lookup "imag" = some iv →
      (isFloatNum rv && isFloatNum iv) = false → d.lookup "dtype" = none →
      dict_to_object d
        = Except.ok (DecResult.plain (removeKey "imag" (removeKey "real" d)))) ∧
    (∀ d : List (String × Json),
      (d.lookup "real" = none ∨ d.lookup "imag" = none) → d.lookup "dtype" = none →
      dict_to_object d = Except.ok (DecResult.plain d)) := by
  refine ⟨?c1, ?c2, ?c3⟩
  · intro d re im h1 h2
    simp only [dict_to_object, dict_to_objectGen, h1, h2]
  · intro d rv iv h1 h2 h3 hdt
    have hd1 : (removeKey "imag" (removeKey "real" d)).lookup "dtype" = none := by
      rw [lookup_removeKey _ _ _ (by decide), lookup_removeKey _ _ _ (by decide), hdt]
    rw [dict_to_object_nonfloat d rv iv h1 h2 h3]
    simp only [decodeDtypePart, decodeDtypePartGen, hd1]
  · intro d hor hdt
    rcases hor with hr | hi
    · rcases hi2 : d.lookup "imag" with _ | iv <;>
        simp only [dict_to_object, dict_to_objectGen, hr, hi2, decodeDtypePartGen, hdt]
    · rcases hr2 : d.lookup "real" with _ | rv <;>
        simp only [dict_to_object, dict_to_objectGen, hr2, hi, decodeDtypePartGen, hdt]

/-- C7 amended witness: concrete instances of the three amended cases. -/
theorem C7_complex_reinterpretation_amended_witness :
    ([("real", Json.num (JNum.float 3)), ("imag", Json.num (JNum.float 4))].lookup "real"
      = some (Json.num (JNum.float 3)) ∧
     dict_to_object [("real", Json.num (JNum.float 3)), ("imag", Json.num (JNum.float 4))]
      = Except.ok (DecResult.complex 3 4)) ∧
    ((isFloatNum (Json.num (JNum.int 1)) && isFloatNum (Json.num (JNum.float 2))) = false ∧
     dict_to_object
        [("real", Json.num (JNum.int 1)), ("imag", Json.num (JNum.float 2)), ("x", Json.str "y")]
      = Except.ok (DecResult.plain [("x", Json.str "y")])) ∧
    ([("z", Json.null)].lookup "real" = none ∧
     dict_to_object [("z", Json.null)] = Except.ok (DecResult.plain [("z", Json.null)])) :=
  ⟨⟨rfl, C7_complex_reinterpretation_amended.1 _ 3 4 rfl rfl⟩,
   ⟨rfl, C7_complex_reinterpretation_amended.2.1 _ (Json.num (JNum.int 1)) (Json.num (JNum.float 2))
      rfl rfl rfl rfl⟩,
   ⟨rfl, C7_complex_reinterpretation_amended.2.2 _ (Or.inl rfl) rfl⟩⟩

/-- C8: the dtype tag is interpreted by numpy's `np.dtype`, an external
collaborator whose recognised-tag grammar is open-ended; for every behaviour
that recogniser may have, whenever it rejects a tag carried by an object with
`dtype` and `array` fields, the decoder surfaces that failure to the caller
unchanged — no value is silently returned and nothing is retried; in
particular, with the concrete `np.dtype` model, a tag it rejects surfaces as
UnsupportedDType. -/
theorem C8_unrecognised_dtype_fails :
    (∀ (npd : String → Except PyErr NpDtype) (d : List (String × Json)) (s : String)
        (av : Json) (e : PyErr),
      d.lookup "real" = none → d.lookup "dtype" = some (Json.str s) →
      d.lookup "array" = some av → npd s = Except.error e →
      dict_to_objectGen npd d = Except.error e) ∧
    (∀ (d : List (String × Json)) (s : String) (av : Json),
      d.lookup "real" = none → d.lookup "dtype" = some (Json.str s) →
      d.lookup "array" = some av → npDtype s = Except.error PyErr.unsupportedDType →
      dict_to_object d = Except.error PyErr.unsupportedDType) := by
  have hgen : ∀ (npd : String → Except PyErr NpDtype) (d : List (String × Json)) (s : String)
      (av : Json) (e : PyErr),
      d.lookup "real" = none → d.lookup "dtype" = some (Json.str s) →
      d.lookup "array" = some av → npd s = Except.error e →
      dict_to_objectGen npd d = Except.error e := by
    intro npd d s av e hr hd ha hu
    rcases hi : d.lookup "imag" with _ | iv <;>
      simp only [dict_to_objectGen, hr, hi, decodeDtypePartGen, hd, ha, hu]
  exact ⟨hgen, fun d s av hr hd ha hu =>
    hgen npDtype d s av PyErr.unsupportedDType hr hd ha hu⟩

/-- C8 witness: the tag `foo`, which `np.dtype` rejects, surfaces the failure
through both the generic and the concrete decoder. -/
theorem C8_unrecognised_dtype_fails_witness :
    ([("dtype", Json.str "foo"), ("array", Json.arr [])].lookup "real" = none ∧
     [("dtype", Json.str "foo"), ("array", Json.arr [])].lookup "dtype" = some (Json.str "foo") ∧
     [("dtype", Json.str "foo"), ("array", Json.arr [])].lookup "array" = some (Json.arr []) ∧
     npDtype "foo" = Except.error PyErr.unsupportedDType) ∧
    dict_to_object [("dtype", Json.str "foo"), ("array", Json.arr [])]
      = Except.error PyErr.unsupportedDType :=
  ⟨⟨rfl, rfl, rfl, rfl⟩,
   C8_unrecognised_dtype_fails.2 _ "foo" (Json.arr []) rfl rfl rfl rfl⟩

/-- C2: running the transformer over the reduction events of any document,
from the empty path, never faults and records exactly the manual enumeration
of callback invocations — one per value node (children before parents, object
keys and 0-based array indices as path segments); on the sample document
`\x7b"a": [1, \x7b"b": 2\x7d]\x7d` the recorded sequence is exactly the one
the spec lists. -/
theorem C2_selector_callback_paths :
    (∀ d : Json, runEvents (events d) [] [] = some ([], expectedCalls [] d)) ∧
    (∀ d : Json, (expectedCalls [] d).length = nodeCount d) ∧
    expectedCalls [] sampleDoc =
      [([Seg.key "a", Seg.idx 0], Json.num (JNum.float 1)),
       ([Seg.key "a", Seg.idx 1, Seg.key "b"], Json.num (JNum.float 2)),
       ([Seg.key "a", Seg.idx 1], Json.obj [("b", Json.num (JNum.float 2))]),
       ([Seg.key "a"], Json.arr [Json.num (JNum.float 1), Json.obj [("b", Json.num (JNum.float 2))]]),
       ([], sampleDoc)] := by
  refine ⟨fun d => ?_, fun d => expectedCalls_length [] d, ?_⟩
  · simpa using runEvents_events d [] []
  · rfl

/-- C1 evidence (code bug): the root-scalar slip of `write_value` (it leaves
`post_pair`/`post_elem` instead of `postdoc`) lets the state stack underflow.
On the text back-end, `write_value(0)` then `exit_object()` pops the stack to
empty during the call (the Python `_post_value` then raises IndexError) after
writing a newline and a closing brace; on the in-memory back-end,
`write_value(0)` then `exit_array()` leaves the state stack empty and the
next call indexes the empty stack. -/
theorem C1_stack_underflow_trace :
    (fileWriteValue pureJsonEnc (PyVal.json (Json.num (JNum.int 0))) (fileInit 2)).2 = none ∧
    (fileWriteValue pureJsonEnc (PyVal.json (Json.num (JNum.int 0))) (fileInit 2)).1.stack
      = [StreamState.post_pair] ∧
    (fileExitObject (fileWriteValue pureJsonEnc (PyVal.json (Json.num (JNum.int 0)))
        (fileInit 2)).1).2 = some PyErr.indexError ∧
    (fileExitObject (fileWriteValue pureJsonEnc (PyVal.json (Json.num (JNum.int 0)))
        (fileInit 2)).1).1.stack = [] ∧
    (fileExitObject (fileWriteValue pureJsonEnc (PyVal.json (Json.num (JNum.int 0)))
        (fileInit 2)).1).1.out = "0\n\x7d" ∧
    (memWriteValue none (PyVal.json (Json.num (JNum.int 0))) memInit).2 = none ∧
    (memWriteValue none (PyVal.json (Json.num (JNum.int 0))) memInit).1.state
      = [StreamState.post_elem] ∧
    (memExitArray (memWriteValue none (PyVal.json (Json.num (JNum.int 0))) memInit).1).2
      = none ∧
    (memExitArray (memWriteValue none (PyVal.json (Json.num (JNum.int 0))) memInit).1).1.state
      = [] ∧
    (memWriteKey "k"
        (memExitArray (memWriteValue none (PyVal.json (Json.num (JNum.int 0))) memInit).1).1).2
      = some PyErr.indexError :=
  ⟨rfl, rfl, rfl, rfl, rfl, rfl, rfl, rfl, rfl, rfl⟩

/-- C3 evidence (code bug): writing a root value from `PreDoc` does not reach
`PostDoc` — the text back-end leaves `post_pair` (so a following `write_key`
is wrongly accepted) and the in-memory back-end leaves `post_elem` (its
dedicated `predoc -> postdoc` branch is dead code); moreover neither back-end
rejects further calls from `postdoc`: the text back-end accepts `enter_array`
and the in-memory back-end accepts another `write_value`, appending a second
root value. -/
theorem C3_root_value_not_postdoc :
    (fileWriteValue pureJsonEnc (PyVal.json (Json.num (JNum.int 0))) (fileInit 2)).1.stack
      = [StreamState.post_pair] ∧
    [StreamState.post_pair] ≠ [StreamState.postdoc] ∧
    (fileWriteKey "oops" (fileWriteValue pureJsonEnc (PyVal.json (Json.num (JNum.int 0)))
        (fileInit 2)).1).2 = none ∧
    (fileEnterArray (FileState.mk 2 0 [StreamState.postdoc] "0")).2 = none ∧
    (memWriteValue none (PyVal.json (Json.num (JNum.int 0))) memInit).1.state
      = [StreamState.post_elem] ∧
    (memWriteValue none (PyVal.json (Json.num (JNum.int 1)))
        (MemState.mk [StreamState.postdoc] [(MemV.list [MemV.scalar (PyVal.json (Json.num (JNum.int 0)))], Locus.root)] "")).2
      = none :=
  ⟨rfl, by decide, rfl, rfl, rfl, rfl⟩

/-- C5: `exit_array` from a top of `PostElem` (and `exit_object` from
`PostPair`) is legal, implicitly finalises the last element/pair and pops the
scope (the exposed state undergoing the post-value transition on the text
back-end); from `InArray`/`InObject` the empty scope pops the same way; from
any other top state both exits raise ProtocolViolation and leave the whole
state — output included — untouched.  Both back-ends. -/
theorem C5_exit_recovery_and_legality :
    (∀ (s : FileState) (r : StreamState) (rs : List StreamState),
      s.stack = StreamState.post_elem :: r :: rs →
      (fileExitArray s).2 = none ∧ (fileExitArray s).1.stack = postValue r :: rs) ∧
    (∀ (s : FileState) (r : StreamState) (rs : List StreamState),
      s.stack = StreamState.in_array :: r :: rs →
      (fileExitArray s).2 = none ∧ (fileExitArray s).1.stack = postValue r :: rs) ∧
    (∀ (s : FileState) (t : StreamState) (ts : List StreamState),
      s.stack = t :: ts → t ≠ StreamState.post_elem → t ≠ StreamState.in_array →
      fileExitArray s = (s, some PyErr.protocolViolation)) ∧
    (∀ (s : FileState) (r : StreamState) (rs : List StreamState),
      s.stack = StreamState.post_pair :: r :: rs →
      (fileExitObject s).2 = none ∧ (fileExitObject s).1.stack = postValue r :: rs) ∧
    (∀ (s : FileState) (r : StreamState) (rs : List StreamState),
      s.stack = StreamState.in_object :: r :: rs →
      (fileExitObject s).2 = none ∧ (fileExitObject s).1.stack = postValue r :: rs) ∧
    (∀ (s : FileState) (t : StreamState) (ts : List StreamState),
      s.stack = t :: ts → t ≠ StreamState.post_pair → t ≠ StreamState.in_object →
      fileExitObject s = (s, some PyErr.protocolViolation)) ∧
    (∀ (m : MemState) (t : StreamState) (ts : List StreamState) (e : MemV × Locus)
        (es : List (MemV × Locus)),
      m.state = StreamState.post_elem :: t :: ts → m.value = e :: es →
      (memExitArray m).2 = none ∧ (memExitArray m).1.state = t :: ts) ∧
    (∀ (m : MemState) (t : StreamState) (ts : List StreamState),
      m.state = t :: ts → t ≠ StreamState.post_elem → t ≠ StreamState.in_array →
      memExitArray m = (m, some PyErr.protocolViolation)) ∧
    (∀ (m : MemState) (t : StreamState) (ts : List StreamState) (e : MemV × Locus)
        (es : List (MemV × Locus)),
      m.state = StreamState.post_pair :: t :: ts → m.value = e :: es →
      (memExitObject m).2 = none ∧ (memExitObject m).1.state = t :: ts) ∧
    (∀ (m : MemState) (t : StreamState) (ts : List StreamState),
      m.state = t :: ts → t ≠ StreamState.post_pair → t ≠ StreamState.in_object →
      memExitObject m = (m, some PyErr.protocolViolation)) := by
  refine ⟨?f1, ?f2, ?f3, ?f4, ?f5, ?f6, ?m1, ?m2, ?m3, ?m4⟩
  · intro s r rs hs
    obtain ⟨ind, dep, stk, out⟩ := s
    dsimp only at hs
    subst hs
    exact ⟨rfl, rfl⟩
  · intro s r rs hs
    obtain ⟨ind, dep, stk, out⟩ := s
    dsimp only at hs
    subst hs
    exact ⟨rfl, rfl⟩
  · intro s t ts hs h1 h2
    obtain ⟨ind, dep, stk, out⟩ := s
    dsimp only at hs
    subst hs
    cases t <;> simp_all [fileExitArray]
  · intro s r rs hs
    obtain ⟨ind, dep, stk, out⟩ := s
    dsimp only at hs
    subst hs
    exact ⟨rfl, rfl⟩
  · intro s r rs hs
    obtain ⟨ind, dep, stk, out⟩ := s
    dsimp only at hs
    subst hs
    exact ⟨rfl, rfl⟩
  · intro s t ts hs h1 h2
    obtain ⟨ind, dep, stk, out⟩ := s
    dsimp only at hs
    subst hs
    cases t <;> simp_all [fileExitObject]
  · intro m t ts e es hs hv
    obtain ⟨st, vl, ck⟩ := m
    dsimp only at hs hv
    subst hs
    subst hv
    exact ⟨rfl, rfl⟩
  · intro m t ts hs h1 h2
    obtain ⟨st, vl, ck⟩ := m
    dsimp only at hs
    subst hs
    cases t <;> simp_all [memExitArray]
  · intro m t ts e es hs hv
    obtain ⟨st, vl, ck⟩ := m
    dsimp only at hs hv
    subst hs
    subst hv
    exact ⟨rfl, rfl⟩
  · intro m t ts hs h1 h2
    obtain ⟨st, vl, ck⟩ := m
    dsimp only at hs
    subst hs
    cases t <;> simp_all [memExitObject]

/-- C5 witness: the recovery exits and the illegal exits at concrete
states. -/
theorem C5_exit_recovery_and_legality_witness :
    ((fileExitArray (FileState.mk 2 1 [StreamState.post_elem, StreamState.in_pair] "")).2 = none ∧
     (fileExitArray (FileState.mk 2 1 [StreamState.post_elem, StreamState.in_pair] "")).1.stack
       = [StreamState.post_pair]) ∧
    fileExitArray (FileState.mk 2 0 [StreamState.predoc] "")
      = (FileState.mk 2 0 [StreamState.predoc] "", some PyErr.protocolViolation) ∧
    ((fileExitObject (FileState.mk 2 1 [StreamState.post_pair, StreamState.predoc] "")).2 = none ∧
     (fileExitObject (FileState.mk 2 1 [StreamState.post_pair, StreamState.predoc] "")).1.stack
       = [StreamState.postdoc]) ∧
    fileExitObject (FileState.mk 2 1 [StreamState.in_array, StreamState.predoc] "x")
      = (FileState.mk 2 1 [StreamState.in_array, StreamState.predoc] "x",
         some PyErr.protocolViolation) ∧
    ((memExitArray (MemState.mk [StreamState.post_elem, StreamState.in_pair]
        [(MemV.list [], Locus.lastElem), (MemV.dict [], Locus.root)] "k")).2 = none ∧
     (memExitArray (MemState.mk [StreamState.post_elem, StreamState.in_pair]
        [(MemV.list [], Locus.lastElem), (MemV.dict [], Locus.root)] "k")).1.state
       = [StreamState.in_pair]) ∧
    memExitArray (MemState.mk [StreamState.in_object] [(MemV.dict [], Locus.root)] "")
      = (MemState.mk [StreamState.in_object] [(MemV.dict [], Locus.root)] "",
         some PyErr.protocolViolation) ∧
    ((memExitObject (MemState.mk [StreamState.post_pair, StreamState.predoc]
        [(MemV.dict [], Locus.lastElem), (MemV.list [], Locus.root)] "k")).2 = none ∧
     (memExitObject (MemState.mk [StreamState.post_pair, StreamState.predoc]
        [(MemV.dict [], Locus.lastElem), (MemV.list [], Locus.root)] "k")).1.state
       = [StreamState.predoc]) ∧
    memExitObject (MemState.mk [StreamState.post_elem] [(MemV.list [], Locus.root)] "")
      = (MemState.mk [StreamState.post_elem] [(MemV.list [], Locus.root)] "",
         some PyErr.protocolViolation) :=
  ⟨C5_exit_recovery_and_legality.1 _ StreamState.in_pair [] rfl,
   C5_exit_recovery_and_legality.2.2.1 _ StreamState.predoc [] rfl
     (by decide) (by decide),
   C5_exit_recovery_and_legality.2.2.2.1 _ StreamState.predoc [] rfl,
   C5_exit_recovery_and_legality.2.2.2.2.2.1 _ StreamState.in_array [StreamState.predoc] rfl
     (by decide) (by decide),
   C5_exit_recovery_and_legality.2.2.2.2.2.2.1 _ StreamState.in_pair []
     (MemV.list [], Locus.lastElem) [(MemV.dict [], Locus.root)] rfl rfl,
   C5_exit_recovery_and_legality.2.2.2.2.2.2.2.1 _ StreamState.in_object [] rfl
     (by decide) (by decide),
   C5_exit_recovery_and_legality.2.2.2.2.2.2.2.2.1 _ StreamState.predoc []
     (MemV.dict [], Locus.lastElem) [(MemV.list [], Locus.root)] rfl rfl,
   C5_exit_recovery_and_legality.2.2.2.2.2.2.2.2.2 _ StreamState.post_elem [] rfl
     (by decide) (by decide)⟩

theorem fileWriteValue_inPair_error (enc : Enc) (v : PyVal) (ind : Nat) (dep : Int)
    (rest : List StreamState) (out : String) (e : PyErr) (he : enc v = Except.error e) :
    fileWriteValue enc v (FileState.mk ind dep (StreamState.in_pair :: rest) out)
      = (FileState.mk ind dep (StreamState.in_pair :: rest) out, some e) := by
  simp only [fileWriteValue, pyDumps, he]
  rfl

/-- C4: when the value write inside `write_pair(key, value, codec)` raises
(here: the encoder rejects the value), the stream state and emitted text are
exactly those of a successful `write_pair(key, None)` from the same starting
state — the key is followed by a `null`, the document stays well-formed —
and the original failure is re-raised to the caller. -/
theorem C4_write_pair_null_recovery (enc : Enc) (k : String) (v : PyVal) (s : FileState)
    (e : PyErr) (t : StreamState) (rest : List StreamState)
    (hs : s.stack = t :: rest) (ht : t = StreamState.in_object ∨ t = StreamState.post_pair)
    (he : enc v = Except.error e) :
    fileWritePair enc k v s
      = ((fileWritePair pureJsonEnc k (PyVal.json Json.null) s).1, some e) ∧
    (fileWritePair pureJsonEnc k (PyVal.json Json.null) s).2 = none := by
  obtain ⟨ind, dep, stk, out⟩ := s
  dsimp only at hs
  subst hs
  rcases ht with ht | ht <;> subst ht
  · obtain ⟨out2, hk⟩ :
        ∃ out2, fileWriteKey k (FileState.mk ind dep (StreamState.in_object :: rest) out)
          = (FileState.mk ind dep (StreamState.in_pair :: rest) out2, none) := ⟨_, rfl⟩
    have hv := fileWriteValue_inPair_error enc v ind dep rest out2 e he
    constructor
    · simp only [fileWritePair, hk, hv]
      rfl
    · rfl
  · obtain ⟨out2, hk⟩ :
        ∃ out2, fileWriteKey k (FileState.mk ind dep (StreamState.post_pair :: rest) out)
          = (FileState.mk ind dep (StreamState.in_pair :: rest) out2, none) := ⟨_, rfl⟩
    have hv := fileWriteValue_inPair_error enc v ind dep rest out2 e he
    constructor
    · simp only [fileWritePair, hk, hv]
      rfl
    · rfl

/-- C4 witness: a failing encoder inside an object scope — the output equals
the `write_pair(key, None)` output and the TypeError is re-raised. -/
theorem C4_write_pair_null_recovery_witness :
    (FileState.mk 2 1 [StreamState.in_object, StreamState.predoc] "\x7b\n").stack
      = StreamState.in_object :: [StreamState.predoc] ∧
    (fun (_ : PyVal) => (Except.error PyErr.typeError : Except PyErr Json))
        (PyVal.complexVal 1 2) = Except.error PyErr.typeError ∧
    fileWritePair (fun _ => Except.error PyErr.typeError) "k" (PyVal.complexVal 1 2)
        (FileState.mk 2 1 [StreamState.in_object, StreamState.predoc] "\x7b\n")
      = ((fileWritePair pureJsonEnc "k" (PyVal.json Json.null)
            (FileState.mk 2 1 [StreamState.in_object, StreamState.predoc] "\x7b\n")).1,
         some PyErr.typeError) ∧
    (fileWritePair pureJsonEnc "k" (PyVal.json Json.null)
        (FileState.mk 2 1 [StreamState.in_object, StreamState.predoc] "\x7b\n")).2 = none :=
  ⟨rfl, rfl,
   (C4_write_pair_null_recovery (fun _ => Except.error PyErr.typeError) "k"
      (PyVal.complexVal 1 2)
      (FileState.mk 2 1 [StreamState.in_object, StreamState.predoc] "\x7b\n")
      PyErr.typeError StreamState.in_object [StreamState.predoc]
      rfl (Or.inl rfl) rfl).1,
   (C4_write_pair_null_recovery (fun _ => Except.error PyErr.typeError) "k"
      (PyVal.complexVal 1 2)
      (FileState.mk 2 1 [StreamState.in_object, StreamState.predoc] "\x7b\n")
      PyErr.typeError StreamState.in_object [StreamState.predoc]
      rfl (Or.inl rfl) rfl).2⟩

/-- C9 evidence (code bug): `FileWriteStream.unwind` never drives the
automaton anywhere — evaluating its loop condition raises AttributeError
(`self.predoc` does not exist) from every state, IndexError first when the
stack is empty; the state is left untouched and no terminal state is
reached. -/
theorem C9_file_unwind_always_raises (s : FileState) :
    (fileUnwind s).1 = s ∧ (fileUnwind s).2 ≠ none := by
  cases hs : s.stack with
  | nil => simp [fileUnwind, hs]
  | cons t ts => simp [fileUnwind, hs]

/-- C10: `MemoryWriteStream.write_value` with a codec runs
`cls().default(value)` before reading any state, so the codec applies
unconditionally; `NumericEncoder().default` rejects every JSON-native value
with TypeError, so such a write raises and stores nothing — the stream is
returned exactly as it was; a convertible extension value is stored in its
converted object shape. -/
theorem C10_memory_codec_unconditional :
    (∀ (c : PyVal → Except PyErr PyVal) (v : PyVal) (m : MemState),
      memWriteValue (some c) v m
        = match c v with
          | Except.error e => (m, some e)
          | Except.ok v2 => memInsert (MemV.scalar v2) m) ∧
    (∀ j : Json, numericDefault (PyVal.json j) = Except.error PyErr.typeError) ∧
    (∀ (j : Json) (m : MemState),
      memWriteValue (some numericDefault) (PyVal.json j) m = (m, some PyErr.typeError)) ∧
    (∀ re im : ℚ,
      (memWriteValue (some numericDefault) (PyVal.complexVal re im) memInit).2 = none ∧
      (memWriteValue (some numericDefault) (PyVal.complexVal re im) memInit).1.value
        = [(MemV.list [MemV.scalar (PyVal.json (Json.obj (encodeComplex re im)))],
            Locus.root)]) :=
  ⟨fun _ _ _ => rfl, fun _ => rfl, fun _ _ => rfl, fun _ _ => ⟨rfl, rfl⟩⟩

end Jsci
